import Mathlib

/-!
Verification development for the Sindh High Court Selenium scraper
(`shc_selenium_scraper.py`).  The pure extraction logic (record extraction,
detail resolution, filtering, scope dedup) is embedded directly; the
browser-automation session (Selenium driver) and the HTML parsing primitive
(BeautifulSoup) are external collaborators, modelled respectively as an
abstract state type with operation records and as an explicit node tree.
-/

/-! ## Configuration constants (from the CONFIG section of the script) -/

/-- BASE_URL = "https://cases.shc.gov.pk/". -/
def BASE_URL : String := "https://cases.shc.gov.pk/"

/-- MAX_PAGES = 20, the maximum pages to scrape per subcourt. -/
def MAX_PAGES : Nat := 20

/-! ## String helpers mirroring Python primitives -/

/-- Boolean prefix test on character lists. -/
def chPrefix : List Char → List Char → Bool
  | [], _ => true
  | _ :: _, [] => false
  | a :: as, b :: bs => a = b && chPrefix as bs

/-- Boolean infix (contiguous substring) test on character lists. -/
def chInfix (needle : List Char) : List Char → Bool
  | [] => needle.isEmpty
  | b :: bs => chPrefix needle (b :: bs) || chInfix needle bs

/-- Python's substring test `needle in hay` on strings. -/
def containsSubstr (hay needle : String) : Bool :=
  chInfix needle.data hay.data

/-- Python's `str.lower`, character-wise (the scraped names are ASCII). -/
def pyLower (s : String) : String :=
  String.mk (s.data.map Char.toLower)

/-- Python's `str.strip`: drop leading and trailing whitespace. -/
def pyStrip (s : String) : String :=
  String.mk (((s.data.dropWhile Char.isWhitespace).reverse.dropWhile
    Char.isWhitespace).reverse)

/-- Does the string start with the given prefix. -/
def pyStartsWith (s pre : String) : Bool :=
  chPrefix pre.data s.data

/-- Does the string end with the given suffix. -/
def pyEndsWith (s suf : String) : Bool :=
  chPrefix suf.data.reverse s.data.reverse

/-- Replace every occurrence of one character by another. -/
def replaceChar (c d : Char) (s : String) : String :=
  String.mk (s.data.map (fun x => if x = c then d else x))

/-- Split a character list on a separator character (Python `str.split(sep)`
semantics: empty pieces are kept, the empty input yields one empty piece). -/
def splitCh (c : Char) : List Char → List (List Char)
  | [] => [[]]
  | a :: rest =>
    match splitCh c rest with
    | [] => [[a]]
    | h :: t => if a = c then [] :: h :: t else (a :: h) :: t

/-- Split a string on a single-character separator. -/
def splitOnChar (c : Char) (s : String) : List String :=
  (splitCh c s.data).map String.mk

/-- Drop characters from the right while the predicate holds. -/
def pyDropRightWhile (s : String) (p : Char → Bool) : String :=
  String.mk (s.data.reverse.dropWhile p).reverse

/-- Python's `str.splitlines`, modelled as splitting on a newline character
(the script's card texts only contain plain newlines). -/
def splitLines (s : String) : List String :=
  splitOnChar '\n' s

/-- Scheme-plus-authority part of an absolute URL, e.g.
"https://cases.shc.gov.pk" for "https://cases.shc.gov.pk/x/y". -/
def schemeAuthorityOf (base : String) : String :=
  String.intercalate "/" ((splitOnChar '/' base).take 3)

/-- Directory part of a URL: everything up to and including the last slash. -/
def urlDirOf (base : String) : String :=
  pyDropRightWhile base (fun c => c ≠ '/')

/-- Model of `urllib.parse.urljoin(base, rel)` restricted to the URL shapes
this scraper produces: an empty relative part keeps the base, an absolute URL
(containing "://") replaces it, a root-relative path is joined to the base's
scheme and authority, any other path is joined to the base's directory. -/
def urljoin (base rel : String) : String :=
  if rel = "" then base
  else if containsSubstr rel "://" then rel
  else if pyStartsWith rel "/" then schemeAuthorityOf base ++ rel
  else urlDirOf base ++ rel

/-- sanitize_filename: keep alphanumerics, space, underscore and hyphen,
replace every other character by an underscore, then turn spaces into
underscores. -/
def sanitize_filename (s : String) : String :=
  let safe := String.mk (s.data.map (fun c =>
    if c.isAlphanum ∨ c = ' ' ∨ c = '_' ∨ c = '-' then c else '_'))
  replaceChar ' ' '_' safe

/-! ## should_scrape_court (Filter/Selection component) -/

/-- should_scrape_court: with no allow-list every court is scraped, otherwise
a court is scraped when some entry is a case-insensitive substring of the
court name or the court name is a case-insensitive substring of the entry. -/
def should_scrape_court (court_name : String) (selected_courts : Option (List String)) : Bool :=
  match selected_courts with
  | none => true
  | some sel =>
    let court_name_lower := pyLower court_name
    sel.any (fun selected =>
      let selected_lower := pyLower selected
      containsSubstr court_name_lower selected_lower
        || containsSubstr selected_lower court_name_lower)

/-! ## HTML node model (the BeautifulSoup collaborator's parsed documents)

A parsed document is a tree of element and text nodes.  `Node` and `NodeList`
are a mutual pair so that every traversal below is plain structural recursion
and therefore computes by `rfl`/`decide`. -/

mutual
/-- One parsed HTML node: an element with tag, attributes and children, or a
text node (a BeautifulSoup NavigableString). -/
inductive Node : Type where
  | text : String → Node
  | elem : String → List (String × String) → NodeList → Node
/-- Children of an element node. -/
inductive NodeList : Type where
  | nil : NodeList
  | cons : Node → NodeList → NodeList
end

/-- Convert a plain list of nodes into a NodeList. -/
def ofList : List Node → NodeList
  | [] => .nil
  | n :: rest => .cons n (ofList rest)

/-- Convert a NodeList back to a plain list. -/
def toList : NodeList → List Node
  | .nil => []
  | .cons n rest => n :: toList rest

/-- Element-node constructor taking a plain child list. -/
def el (tag : String) (attrs : List (String × String)) (children : List Node) : Node :=
  .elem tag attrs (ofList children)

/-- Text-node constructor. -/
def tx (s : String) : Node :=
  .text s

/-- Attribute lookup on an element node (None on text nodes). -/
def attrOf : Node → String → Option String
  | .text _, _ => none
  | .elem _ attrs _, key => attrs.lookup key

/-- Does the node carry the given element tag. -/
def tagIs (tag : String) : Node → Bool
  | .text _ => false
  | .elem t _ _ => t = tag

mutual
/-- The node itself followed by all of its descendants, in document
(pre-)order. -/
def selfAndDesc : Node → List Node
  | .text s => [.text s]
  | .elem t attrs cs => .elem t attrs cs :: descListOf cs
/-- All nodes of a NodeList together with their descendants, in document
order. -/
def descListOf : NodeList → List Node
  | .nil => []
  | .cons n rest => selfAndDesc n ++ descListOf rest
end

/-- Descendants of a node, the node itself excluded: what BeautifulSoup's
`find_all` on a tag searches. -/
def childDesc : Node → List Node
  | .text _ => []
  | .elem _ _ cs => descListOf cs

/-- `tag.find_all(name)`: all descendant elements with the given tag, in
document order. -/
def findAllTag (tag : String) (n : Node) : List Node :=
  (childDesc n).filter (tagIs tag)

/-- `tag.find(name)`: first descendant element with the given tag. -/
def findFirstTag (tag : String) (n : Node) : Option Node :=
  (findAllTag tag n).head?

/-- Does the node have an `href` attribute (an anchor found by
`find_all("a", href=True)` carries one). -/
def hasHref (n : Node) : Bool :=
  (attrOf n "href").isSome

/-- `soup.find_all("a", href=True)`: all descendant anchors carrying an href
attribute. -/
def anchorsWithHref (n : Node) : List Node :=
  (childDesc n).filter (fun m => tagIs "a" m && hasHref m)

mutual
/-- All text-node strings in a node's subtree, in document order (the strings
`get_text` concatenates; a text node yields itself). -/
def textsOf : Node → List String
  | .text s => [s]
  | .elem _ _ cs => textsOfList cs
/-- All text-node strings below a NodeList, in document order. -/
def textsOfList : NodeList → List String
  | .nil => []
  | .cons n rest => textsOf n ++ textsOfList rest
end

/-- `node.get_text(sep, strip=True)`: strip every string, drop the empty
ones, join with the separator. -/
def getTextSep (sep : String) (n : Node) : String :=
  String.intercalate sep (((textsOf n).map pyStrip).filter (fun s => s ≠ ""))

/-- `node.get_text(strip=True)`: stripped strings concatenated without a
separator (used by the script only for truthiness tests). -/
def getTextConcat (n : Node) : String :=
  String.join (((textsOf n).map pyStrip).filter (fun s => s ≠ ""))

/-! ## CSS selectors (the subset `select_one` is called with) -/

/-- A simple CSS selector: optional tag, optional id, required classes
(covers "div#Summary", ".summary", "p.summary", "#Tagline", ...). -/
structure SimpleSel where
  tag : Option String
  idAttr : Option String
  classes : List String

/-- A selector as used by the script: simple, or a descendant combination of
two simple selectors (".last-hearing .date"). -/
inductive Sel : Type where
  | simple : SimpleSel → Sel
  | descendant : SimpleSel → SimpleSel → Sel

/-- Class list of an element: the `class` attribute split on spaces. -/
def classesOf (n : Node) : List String :=
  (splitOnChar ' ' ((attrOf n "class").getD "")).filter (fun c => c ≠ "")

/-- Does an element node match a simple selector. -/
def matchesSimple (ss : SimpleSel) (n : Node) : Bool :=
  match n with
  | .text _ => false
  | .elem t _ _ =>
    (match ss.tag with | some tg => t = tg | none => true)
      && (match ss.idAttr with | some i => attrOf n "id" = some i | none => true)
      && ss.classes.all (fun c => (classesOf n).contains c)

mutual
/-- Elements matching the descendant selector `anc des` below a node, in
document order; `under` records whether a strict ancestor matched `anc`. -/
def selDescNode (anc des : SimpleSel) (under : Bool) : Node → List Node
  | .text _ => []
  | .elem t attrs cs =>
    let n := Node.elem t attrs cs
    (if under && matchesSimple des n then [n] else [])
      ++ selDescList anc des (under || matchesSimple anc n) cs
/-- selDescNode mapped over a NodeList. -/
def selDescList (anc des : SimpleSel) (under : Bool) : NodeList → List Node
  | .nil => []
  | .cons n rest => selDescNode anc des under n ++ selDescList anc des under rest
end

/-- All matches of a selector below a root node, in document order. -/
def selectAll (root : Node) : Sel → List Node
  | .simple ss => (childDesc root).filter (matchesSimple ss)
  | .descendant anc des => selDescNode anc des false root

/-- `soup.select_one(selector)`: first match in document order, if any. -/
def selectOne (root : Node) (q : Sel) : Option Node :=
  (selectAll root q).head?

/-! ## Finding a text node with its surroundings

`soup.find(string=pred)` returns a NavigableString; the script then reads its
`.parent` and the parent's `find_next_sibling(text=True)`.  The search below
returns, for the first matching text node in document order, the pair of its
parent element and the list of nodes following that parent among the parent's
own siblings. -/

mutual
/-- Search the subtree of `parent` (whose following siblings are `after`) for
the first text node satisfying `pred`, in document order. -/
def findStr (pred : String → Bool) : Node → List Node → Option (Node × List Node)
  | .text _, _ => none
  | .elem t attrs cs, after => findStrList pred (Node.elem t attrs cs) after cs
/-- Search a list of children of `parent` left to right. -/
def findStrList (pred : String → Bool) (parent : Node) (after : List Node) :
    NodeList → Option (Node × List Node)
  | .nil => none
  | .cons c rest =>
    (match c with
     | .text s => if pred s then some (parent, after) else none
     | .elem t attrs cs => findStr pred (Node.elem t attrs cs) (toList rest)).orElse
      (fun _ => findStrList pred parent after rest)
end

/-- `parent.find_next_sibling(text=True)`: the first following sibling that is
a text node. -/
def firstTextSibling (after : List Node) : Option String :=
  after.findSome? (fun n => match n with | .text s => some s | .elem _ _ _ => none)

/-! ## Python dict model

A scraped case record is a Python dict with string keys and values that are
strings, integers or nested structures; `JVal` is the JSON-like value type
and a dict is an insertion-ordered association list.  `dinsertG` mirrors
`d[k] = v`: an existing key is updated in place, a new key is appended. -/

/-- JSON-like value stored in a scraped record. -/
inductive JVal : Type where
  | s : String → JVal
  | n : Nat → JVal
  | arr : List JVal → JVal
  | obj : List (String × JVal) → JVal

/-- A case record: an insertion-ordered string-keyed dict. -/
def CaseDict : Type := List (String × JVal)

/-- Python dict assignment `d[k] = v`: update in place or append. -/
def dinsertG {α : Type} (k : String) (v : α) : List (String × α) → List (String × α)
  | [] => [(k, v)]
  | (k0, v0) :: rest => if k0 = k then (k, v) :: rest else (k0, v0) :: dinsertG k v rest

/-- Python dict lookup `d[k]` (as an Option). -/
def dget {α : Type} (d : List (String × α)) (k : String) : Option α :=
  match d with
  | [] => none
  | (k0, v0) :: rest => if k0 = k then some v0 else dget rest k

/-- Keys of a dict in insertion order. -/
def dkeys {α : Type} (d : List (String × α)) : List String :=
  d.map Prod.fst

/-- `d.setdefault(k, v)` on an object value: add `(k, v)` at the end when the
key is absent; non-objects are returned unchanged. -/
def jvalSetdefault (k : String) (v : JVal) : JVal → JVal
  | .obj fields => if (fields.lookup k).isSome then .obj fields else .obj (fields ++ [(k, v)])
  | .s s0 => .s s0
  | .n n0 => .n n0
  | .arr a0 => .arr a0

/-! ## Scope Discovery: find_major_courts_selenium -/

/-- A major-court target: human-readable name plus navigation href. -/
structure Major where
  name : String
  href : String

/-- One landing-page card (`div.col-md-2.mb-3`) as the driver reports it:
`anchorHref = none` when the card has no `a[href]` (the card is skipped);
otherwise the anchor's `href` attribute (itself optional) and its text;
`cardBodyText` is the `div.card-body` text when that element exists. -/
structure CourtDiv where
  anchorHref : Option (Option String)
  anchorText : String
  cardBodyText : Option String

/-- Per-card processing of find_major_courts_selenium: derive the name from
the first meaningful card-body line that is not the "Select Location..."
button label, falling back to the last path segment of the href. -/
def processDiv (d : CourtDiv) : Option Major :=
  match d.anchorHref with
  | none => none
  | some hrefAttr =>
    let href := hrefAttr.getD ""
    let body_text := (match d.cardBodyText with
      | some t => t
      | none => d.anchorText)
    let lines := ((splitLines body_text).map pyStrip).filter (fun ln => ln ≠ "")
    let nameCand := lines.find? (fun ln =>
      !(containsSubstr (pyLower ln) "select" && containsSubstr (pyLower ln) "location"))
    let name := match nameCand with
      | some nm => nm
      | none =>
        let parsed := urljoin BASE_URL href
        let seg := ((splitOnChar '/' (pyDropRightWhile parsed (fun c => c = '/'))).getLastD "")
        if seg ≠ "" then seg else parsed
    some { name := name, href := href }

/-- Dedup pass of find_major_courts_selenium: keep an entry when its
(href, name) pair is unseen and its href is nonempty, preserving first-seen
order. -/
def dedupeMajors : List Major → List (String × String) → List Major
  | [], _ => []
  | e :: rest, seen =>
    if (e.href, e.name) ∉ seen ∧ e.href ≠ "" then
      e :: dedupeMajors rest ((e.href, e.name) :: seen)
    else
      dedupeMajors rest seen

/-- find_major_courts_selenium: process every card, then deduplicate by the
(href, name) pair. -/
def find_major_courts_selenium (divs : List CourtDiv) : List Major :=
  dedupeMajors (divs.filterMap processDiv) []

/-! ## Record Extractor: extract_cases_from_html -/

/-- First table element of the page (`soup.find("table")`). -/
def firstTableOf (root : Node) : Option Node :=
  findFirstTag "table" root

/-- Header row: the first `tr` of the first `thead` when a `thead` exists,
otherwise the first `tr` of the table.  None models the Python path where the
subsequent `header_row.find_all("th")` would raise on None. -/
def headerRowOf (table : Node) : Option Node :=
  match findFirstTag "thead" table with
  | some thead => findFirstTag "tr" thead
  | none => findFirstTag "tr" table

/-- Header cell texts, used as the record's column keys. -/
def headerCellsOf (headerRow : Node) : List String :=
  (findAllTag "th" headerRow).map (getTextSep " ")

/-- Body rows: the `tr`s of the first `tbody` when one exists, otherwise all
`tr`s of the table minus the first (the header). -/
def bodyRowsOf (table : Node) : List Node :=
  match findFirstTag "tbody" table with
  | some tbody => findAllTag "tr" tbody
  | none => (findAllTag "tr" table).tail

/-- Cells (`td`s) of one row. -/
def rowCellsOf (row : Node) : List Node :=
  findAllTag "td" row

/-- Build one record from a row's cells: cell `i` is keyed by the `i`-th
header text, or by the positional fallback "col_i" when the headers run out;
then the fixed `court` and `circuit_code` fields are stamped. -/
def rowEntry (headers : List String) (major circuit : String) (tds : List Node) : CaseDict :=
  let base := tds.enum.foldl (fun e p =>
    dinsertG
      (if p.1 < headers.length then headers.getD p.1 "" else "col_" ++ toString p.1)
      (JVal.s (getTextSep " " p.2)) e) []
  dinsertG "circuit_code" (JVal.s circuit) (dinsertG "court" (JVal.s major) base)

/-- Detail link of a row: the first `a[href]` inside the last cell. -/
def rowLink (tds : List Node) : Option String :=
  tds.getLast?.bind (fun td =>
    ((childDesc td).filter (fun m => tagIs "a" m && hasHref m)).head?.bind
      (fun a => attrOf a "href"))

/-- The `circuit_code` value: `subcourt_name or major_name` (Python truthiness,
so an empty subcourt name also falls back to the major name). -/
def circuitOf (major_name : String) : Option String → String
  | some t => if t ≠ "" then t else major_name
  | none => major_name

/-- The row loop of extract_cases_from_html: rows without cells are skipped,
every other row yields its record and its detail link. -/
def extractRows (headers : List String) (major_name circuit : String) (rows : List Node) :
    List (CaseDict × Option String) :=
  rows.filterMap (fun row =>
    let tds := rowCellsOf row
    if tds.isEmpty then none
    else some (rowEntry headers major_name circuit tds, rowLink tds))

/-- extract_cases_from_html: parse the case table out of a page, returning
the records together with the parallel list of per-row detail links.  A page
without a table yields an empty result; a table whose header row cannot be
located yields `none`, modelling the uncaught AttributeError the Python
raises at `header_row.find_all("th")` in that situation. -/
def extract_cases_from_html (root : Node) (major_name : String) (subcourt_name : Option String) :
    Option (List CaseDict × List (Option String)) :=
  match firstTableOf root with
  | none => some ([], [])
  | some table =>
    match headerRowOf table with
    | none => none
    | some headerRow =>
      let rowsP := extractRows (headerCellsOf headerRow) major_name
        (circuitOf major_name subcourt_name) (bodyRowsOf table)
      some (rowsP.map Prod.fst, rowsP.map Prod.snd)

/-! ## Detail Resolver: extract_case_detail_from_html -/

/-- Last-hearing sub-record of a detail page. -/
structure LastHearing where
  date : String
  list : String
  stage : String
  bench : String
  remarks : String

/-- Advocate lists (initialized empty by the script). -/
structure Advocates where
  applicant : List String
  respondent : List String

/-- Document links of a detail page. -/
structure Documents where
  petition_memo : String
  judgement_order : String

/-- The nested `details` object produced by the resolver; `parties` holds the
joined cell line of each party row (serialized as `{"name": line}`). -/
structure DetailsObj where
  profile : List (String × String)
  last_hearing : LastHearing
  parties : List String
  advocates : Advocates
  documents : Documents

/-- Full result of extract_case_detail_from_html. -/
structure DetailResult where
  summary : String
  tagline : String
  details : DetailsObj

/-- pick_one: first selector in the list whose match exists and has nonempty
text wins; otherwise the "NA" sentinel. -/
def pick_one (root : Node) : List Sel → String
  | [] => "NA"
  | q :: rest =>
    match selectOne root q with
    | some e => if getTextConcat e ≠ "" then getTextSep " " e else pick_one root rest
    | none => pick_one root rest

/-- Selector list for the summary field: "div#Summary", ".summary",
"p.summary", ".case-summary", "#divSummary". -/
def summarySelList : List Sel :=
  [ .simple ⟨some "div", some "Summary", []⟩,
    .simple ⟨none, none, ["summary"]⟩,
    .simple ⟨some "p", none, ["summary"]⟩,
    .simple ⟨none, none, ["case-summary"]⟩,
    .simple ⟨none, some "divSummary", []⟩ ]

/-- Selector list for the tagline field: ".tagline", "span.tagline",
"p.tagline", "#Tagline". -/
def taglineSelList : List Sel :=
  [ .simple ⟨none, none, ["tagline"]⟩,
    .simple ⟨some "span", none, ["tagline"]⟩,
    .simple ⟨some "p", none, ["tagline"]⟩,
    .simple ⟨none, some "Tagline", []⟩ ]

/-- Selector list for last_hearing.date: ".last-hearing .date",
".last-hearing", ".hearing-date", "li.hearing-date". -/
def hearingDateSelList : List Sel :=
  [ .descendant ⟨none, none, ["last-hearing"]⟩ ⟨none, none, ["date"]⟩,
    .simple ⟨none, none, ["last-hearing"]⟩,
    .simple ⟨none, none, ["hearing-date"]⟩,
    .simple ⟨some "li", none, ["hearing-date"]⟩ ]

/-- Selector list for last_hearing.list: ".last-hearing .list",
".hearing-list". -/
def hearingListSelList : List Sel :=
  [ .descendant ⟨none, none, ["last-hearing"]⟩ ⟨none, none, ["list"]⟩,
    .simple ⟨none, none, ["hearing-list"]⟩ ]

/-- Selector list for last_hearing.stage: ".last-hearing .stage",
".hearing-stage". -/
def hearingStageSelList : List Sel :=
  [ .descendant ⟨none, none, ["last-hearing"]⟩ ⟨none, none, ["stage"]⟩,
    .simple ⟨none, none, ["hearing-stage"]⟩ ]

/-- Selector list for last_hearing.bench: ".last-hearing .bench",
".hearing-bench". -/
def hearingBenchSelList : List Sel :=
  [ .descendant ⟨none, none, ["last-hearing"]⟩ ⟨none, none, ["bench"]⟩,
    .simple ⟨none, none, ["hearing-bench"]⟩ ]

/-- Selector list for last_hearing.remarks: ".last-hearing .remarks",
".remarks". -/
def hearingRemarksSelList : List Sel :=
  [ .descendant ⟨none, none, ["last-hearing"]⟩ ⟨none, none, ["remarks"]⟩,
    .simple ⟨none, none, ["remarks"]⟩ ]

/-- Every selector consulted by the resolver's pick_one calls. -/
def allDetailSelectors : List Sel :=
  summarySelList ++ taglineSelList ++ hearingDateSelList ++ hearingListSelList
    ++ hearingStageSelList ++ hearingBenchSelList ++ hearingRemarksSelList

/-- Does a table's visible text mention a party-role keyword (the script's
tuple is ("Petitioner", "Respondent", "Appellant", "Respondent"), listing
Respondent twice; the test is case-sensitive). -/
def partyKeyword (txt : String) : Bool :=
  containsSubstr txt "Petitioner" || containsSubstr txt "Respondent"
    || containsSubstr txt "Appellant" || containsSubstr txt "Respondent"

/-- First table whose visible text mentions a party-role keyword. -/
def partyTableOf (root : Node) : Option Node :=
  (findAllTag "table" root).find? (fun t => partyKeyword (getTextSep " " t))

/-- Party lines of one table: for each row with cells, the nonempty cell
texts joined by " - "; rows yielding an empty line are dropped. -/
def partyLinesOf (table : Node) : List String :=
  (findAllTag "tr" table).filterMap (fun tr =>
    let tds := rowCellsOf tr
    if tds.isEmpty then none
    else
      let line := String.intercalate " - "
        ((tds.filter (fun td => getTextConcat td ≠ "")).map (getTextSep " "))
      if line ≠ "" then some line else none)

/-- The five profile labels the resolver looks for. -/
def profileLabels : List String :=
  ["Case ID", "Institution Date", "Disposal Date", "Disposal Bench", "Nature Of Disposal"]

/-- Predicate of `soup.find(string=lambda t: t and lab.lower() in t.lower())`. -/
def labelPred (lab : String) (t : String) : Bool :=
  t ≠ "" && containsSubstr (pyLower t) (pyLower lab)

/-- Locate the first text node containing the label, returning its parent
element and the nodes following that parent among its siblings. -/
def findProfileNode (root : Node) (lab : String) : Option (Node × List Node) :=
  findStr (labelPred lab) root []

/-- Profile value for a located label: the parent's next text sibling when
one exists and is nonempty, else the parent's own text; an empty result
degrades to "NA", otherwise the value is stripped. -/
def profileValueOf (parent : Node) (after : List Node) : String :=
  let val := match firstTextSibling after with
    | some sv => if sv ≠ "" then sv else getTextSep " " parent
    | none => getTextSep " " parent
  if val ≠ "" then pyStrip val else "NA"

/-- One step of the profile scan: a label found somewhere in the page adds
its value under the lowercased underscore-joined label key. -/
def profileStep (root : Node) (acc : List (String × String)) (lab : String) :
    List (String × String) :=
  match findProfileNode root lab with
  | none => acc
  | some (parent, after) =>
    dinsertG (replaceChar ' ' '_' (pyLower lab)) (profileValueOf parent after) acc

/-- Profile dict: one entry per label found somewhere in the page, keyed by
the lowercased label with spaces replaced by underscores. -/
def profileOf (root : Node) : List (String × String) :=
  profileLabels.foldl (profileStep root) []

/-- One step of the document-links scan: a PDF anchor whose text mentions
memo/petition overwrites `petition_memo`; otherwise one whose text mentions
judgement/judgment/order overwrites `judgement_order`. -/
def docStep (docs : Documents) (a : Node) : Documents :=
  if pyEndsWith (pyLower ((attrOf a "href").getD "")) ".pdf" then
    if containsSubstr (pyLower (getTextSep " " a)) "memo"
        || containsSubstr (pyLower (getTextSep " " a)) "petition" then
      { docs with petition_memo := urljoin BASE_URL ((attrOf a "href").getD "") }
    else if containsSubstr (pyLower (getTextSep " " a)) "judgement"
        || containsSubstr (pyLower (getTextSep " " a)) "judgment"
        || containsSubstr (pyLower (getTextSep " " a)) "order" then
      { docs with judgement_order := urljoin BASE_URL ((attrOf a "href").getD "") }
    else docs
  else docs

/-- Document links of a detail page: fold the scan over every `a[href]`. -/
def documentsOf (root : Node) : Documents :=
  (anchorsWithHref root).foldl docStep { petition_memo := "NA", judgement_order := "NA" }

/-- extract_case_detail_from_html: parse a case detail page into summary,
tagline and the nested details object.  Advocates are initialized empty and
never populated. -/
def extract_case_detail_from_html (root : Node) : DetailResult :=
  let summary := pick_one root summarySelList
  let tagline := pick_one root taglineSelList
  let parties := match partyTableOf root with
    | some t => partyLinesOf t
    | none => []
  let advocates : Advocates := { applicant := [], respondent := [] }
  let profile := profileOf root
  let documents := documentsOf root
  { summary := summary,
    tagline := if tagline ≠ "NA" then tagline else "NA",
    details :=
      { profile := profile,
        last_hearing :=
          { date := pick_one root hearingDateSelList,
            list := pick_one root hearingListSelList,
            stage := pick_one root hearingStageSelList,
            bench := pick_one root hearingBenchSelList,
            remarks := pick_one root hearingRemarksSelList },
        parties := parties,
        advocates := advocates,
        documents := documents } }

/-! ## The browser session collaborator

The Selenium driver is a stateful external collaborator; `σ` is its abstract
state and `DriverOps` the operations the pagination loop issues against it.
Detail pages are fetched in a freshly opened secondary tab that is closed
again before control returns, so a detail fetch never changes the primary
state; `detailPage` returns `none` when `driver.get` raises (the except
branch that leaves the record unenriched). -/

structure DriverOps (σ : Type) where
  tableAppears : σ → Bool
  pageHtml : σ → Node
  pageSourceRaw : σ → String
  currentUrl : σ → String
  nextHref : σ → Option String
  navigate : σ → String → σ
  detailPage : σ → String → Option Node

/-- Serialize a DetailsObj into the dict value stored under `c["details"]`:
profile dict, last_hearing dict, parties as `{"name": line}` objects,
advocate lists and document links. -/
def detailsToJVal (d : DetailsObj) : JVal :=
  .obj
    [ ("profile", .obj (d.profile.map (fun p => (p.1, JVal.s p.2)))),
      ("last_hearing", .obj
        [ ("date", .s d.last_hearing.date),
          ("list", .s d.last_hearing.list),
          ("stage", .s d.last_hearing.stage),
          ("bench", .s d.last_hearing.bench),
          ("remarks", .s d.last_hearing.remarks) ]),
      ("parties", .arr (d.parties.map (fun line => .obj [("name", .s line)]))),
      ("advocates", .obj
        [ ("applicant", .arr (d.advocates.applicant.map JVal.s)),
          ("respondent", .arr (d.advocates.respondent.map JVal.s)) ]),
      ("documents", .obj
        [ ("petition_memo", .s d.documents.petition_memo),
          ("judgement_order", .s d.documents.judgement_order) ]) ]

/-- The literal placeholder details dict assigned when a record has no detail
link: `{"profile": {}, "last_hearing": {}, "parties": [], "advocates": {},
"documents": {}}`. -/
def emptyDetailsJVal : JVal :=
  .obj
    [ ("profile", .obj []),
      ("last_hearing", .obj []),
      ("parties", .arr []),
      ("advocates", .obj []),
      ("documents", .obj []) ]

/-- Enrich one record with its detail page: resolve the (absolutized) link in
a secondary tab and attach `tagline` and `details` (with `summary` added via
setdefault); a fetch failure leaves the record untouched; a record without a
link gets the empty placeholder details dict. -/
def enrichCase {σ : Type} (ops : DriverOps σ) (s : σ) (c : CaseDict)
    (link : Option String) : CaseDict :=
  match link with
  | none => dinsertG "details" emptyDetailsJVal c
  | some href =>
    let full := if pyStartsWith href "http" then href else urljoin BASE_URL href
    match ops.detailPage s full with
    | none => c
    | some detailRoot =>
      let dd := extract_case_detail_from_html detailRoot
      let c1 := dinsertG "tagline" (JVal.s dd.tagline) c
      dinsertG "details"
        (jvalSetdefault "summary" (JVal.s dd.summary) (detailsToJVal dd.details)) c1

/-- The per-page record loop of handle_pagination_and_scrape: enrich each
record with its detail link (links run in parallel with the records; a
missing link entry counts as None), stamp the running `sr_no`, and return the
records with the updated counter. -/
def processCases {σ : Type} (ops : DriverOps σ) (s : σ) :
    List CaseDict → List (Option String) → Nat → List CaseDict × Nat
  | [], _, k => ([], k)
  | c :: cs, links, k =>
    let link := links.headD none
    let c1 := dinsertG "sr_no" (JVal.n k) (enrichCase ops s c link)
    let pr := processCases ops s cs links.tail (k + 1)
    (c1 :: pr.1, pr.2)

/-- The forward-progress check after clicking "next" on page `page`: the
current URL contains "page=<page+1>", or the page source contains the literal
substring "data-page=\"<page>\"". -/
def progressCheck {σ : Type} (ops : DriverOps σ) (s : σ) (page : Nat) : Bool :=
  containsSubstr (ops.currentUrl s) ("page=" ++ toString (page + 1))
    || containsSubstr (ops.pageSourceRaw s) ("data-page=\"" ++ toString page ++ "\"")

/-- Body of the pagination while-loop.  `page` is `current_page`; `fuel` is
the structural count of remaining loop iterations, kept equal to
`MAX_PAGES + 1 - page` by every call (the loop guard `current_page <=
MAX_PAGES` is `fuel > 0`, and the next-seek guard `current_page < MAX_PAGES`
is `fuel > 1`).  The first result component is `none` when the record
extraction raised (uncaught in Python); otherwise the cases of this and all
later pages, the updated `sr_no` counter, and the final driver state.  The
second component counts the pages on which an extraction was performed. -/
def pagGo {σ : Type} (ops : DriverOps σ) (major_name : String) (sub_text : Option String) :
    Nat → σ → Nat → Nat → Option (List CaseDict × Nat × σ) × Nat
  | 0, s, _, k => (some ([], k, s), 0)
  | fuel + 1, s, page, k =>
    if ops.tableAppears s then
      match extract_cases_from_html (ops.pageHtml s) major_name sub_text with
      | none => (none, 1)
      | some (cases_page, detail_links) =>
        if cases_page.isEmpty then (some ([], k, s), 1)
        else
          let pr := processCases ops s cases_page detail_links k
          if fuel = 0 then (some (pr.1, pr.2, s), 1)
          else
            match ops.nextHref s with
            | none => (some (pr.1, pr.2, s), 1)
            | some href =>
              if href = "" then (some (pr.1, pr.2, s), 1)
              else
                let s1 := ops.navigate s href
                if progressCheck ops s1 page then
                  match pagGo ops major_name sub_text fuel s1 (page + 1) pr.2 with
                  | (some (rest, k2, sEnd), p) => (some (pr.1 ++ rest, k2, sEnd), p + 1)
                  | (none, p) => (none, p + 1)
                else (some (pr.1, pr.2, s), 1)
    else (some ([], k, s), 0)

/-- handle_pagination_and_scrape: run the pagination loop for one subcourt
starting at page 1 with the given `sr_no` counter. -/
def handle_pagination_and_scrape {σ : Type} (ops : DriverOps σ) (major_name : String)
    (sub_text : Option String) (s : σ) (sr_no : Nat) :
    Option (List CaseDict × Nat × σ) × Nat :=
  pagGo ops major_name sub_text MAX_PAGES s 1 sr_no

/-! ## Jurisdiction Orchestrator: scrape_major_court -/

/-- Per-jurisdiction output metadata. -/
structure Metadata where
  file_name : String
  created_on : String
  source : String
  url : String
  description : String

/-- Driver operations specific to the orchestrator, on top of `DriverOps`:
navigation to the court page (an Except carrying the exception text),
clicking the initial search button (failures are internal no-ops), locating
the subcourt select and reading its raw options, re-selecting one option (by
visible text then by value; `none` when both fail), and the per-subcourt
search-click-plus-wait step. -/
structure CourtOps (σ : Type) extends DriverOps σ where
  navCourt : σ → String → Except String σ
  navFallback : σ → String → Except String σ
  clickMainSearch : σ → σ
  findSelect : σ → Option (List (String × String))
  reSelect : σ → String × String → Option σ
  subSearchClick : σ → σ

/-- The subcourt for-loop of scrape_major_court: re-select each option (a
selection failure skips the subcourt), click search, paginate, and
concatenate all cases while threading the `sr_no` counter.  `none` when a
pagination run propagated an extraction exception. -/
def scrapeSubcourts {σ : Type} (ops : CourtOps σ) (major_name : String) :
    σ → List (String × String) → Nat → Option (List CaseDict × Nat)
  | _, [], k => some ([], k)
  | s, (sub_text, sub_val) :: rest, k =>
    match ops.reSelect s (sub_text, sub_val) with
    | none => scrapeSubcourts ops major_name s rest k
    | some s1 =>
      let s2 := ops.subSearchClick s1
      match handle_pagination_and_scrape ops.toDriverOps major_name (some sub_text) s2 k with
      | (some (cases, k1, sEnd), _) =>
        (scrapeSubcourts ops major_name sEnd rest k1).map
          (fun pr => (cases ++ pr.1, pr.2))
      | (none, _) => none

/-- scrape_major_court: navigate to the court page (a failure yields failure
metadata and no cases), click the search button, read the subcourt select's
options (keeping nonempty stripped texts not containing "Select"), then
either paginate the main page directly (no subcourts) or run the subcourt
loop; the `sr_no` counter starts at 1.  `none` models an uncaught extraction
exception escaping the function. -/
def scrape_major_court {σ : Type} (ops : CourtOps σ) (today : String) (s : σ)
    (major : Major) : Option (Metadata × List CaseDict) :=
  let nav : Except String σ :=
    if major.href ≠ "" then
      ops.navCourt s
        (if pyStartsWith major.href "http" then major.href else urljoin BASE_URL major.href)
    else ops.navFallback s major.name
  match nav with
  | .error e =>
    some
      ({ file_name := "SindhCourt_" ++ sanitize_filename major.name ++ ".json",
         created_on := today,
         source := "Sindh High Court Case Search Portal",
         url := if major.href ≠ "" then major.href else BASE_URL,
         description := "Failed to open major court: " ++ e }, [])
  | .ok s1 =>
    let s2 := ops.clickMainSearch s1
    let subcourt_texts : List (String × String) :=
      match ops.findSelect s2 with
      | some opts => opts.filterMap (fun tv =>
          let txt := pyStrip tv.1
          if txt ≠ "" && !containsSubstr txt "Select" then some (txt, tv.2) else none)
      | none => []
    let casesRes : Option (List CaseDict) :=
      if subcourt_texts.isEmpty then
        match handle_pagination_and_scrape ops.toDriverOps major.name none s2 1 with
        | (some (cases, _, _), _) => some cases
        | (none, _) => none
      else
        (scrapeSubcourts ops major.name s2 subcourt_texts 1).map Prod.fst
    casesRes.map (fun cases =>
      ({ file_name := "SindhCourt_" ++ sanitize_filename major.name ++ ".json",
         created_on := today,
         source := "Sindh High Court Case Search Portal",
         url := BASE_URL,
         description := "Cases extracted for major court: " ++ major.name }, cases))

/-! ## Supporting lemmas -/

/-! ## Concrete documents, driver environments and claim-side predicates -/

/-- Concrete landing-page card used to witness the dedup claim. -/
def courtDivExample : CourtDiv :=
  { anchorHref := some (some "https://x/y"), anchorText := "A",
    cardBodyText := some "CourtX" }

/-- A driver whose page never shows a table. -/
def unitDriverNoTable : DriverOps Unit :=
  { tableAppears := fun _ => false,
    pageHtml := fun _ => el "html" [] [],
    pageSourceRaw := fun _ => "",
    currentUrl := fun _ => "",
    nextHref := fun _ => none,
    navigate := fun s _ => s,
    detailPage := fun _ _ => none }

/-- An orchestrator environment with one subcourt option whose selection
always fails (both by visible text and by value). -/
def subcourtFailOps : CourtOps Unit :=
  { toDriverOps := unitDriverNoTable,
    navCourt := fun s _ => .ok s,
    navFallback := fun s _ => .ok s,
    clickMainSearch := fun s => s,
    findSelect := fun _ => some [("CourtA", "1")],
    reSelect := fun _ _ => none,
    subSearchClick := fun s => s }

/-- A one-case listing page: a table with one header cell "A" and one body
row with one cell "x". -/
def staticPageHtml : Node :=
  el "[document]" []
    [el "table" []
      [el "tr" [] [el "th" [] [tx "A"]],
       el "tr" [] [el "td" [] [tx "x"]]]]

/-- A page source containing the literal pagination markers data-page="1"
through data-page="19". -/
def staticMarkers : String :=
  String.join ((List.range' 1 19).map
    (fun i => " data-page=\"" ++ toString i ++ "\""))

/-- A driver whose "next" control never changes anything: navigation is the
identity, the URL and the page source are constant — yet the constant source
contains the data-page markers the progress check looks for. -/
def staticPageOps : DriverOps Unit :=
  { tableAppears := fun _ => true,
    pageHtml := fun _ => staticPageHtml,
    pageSourceRaw := fun _ => staticMarkers,
    currentUrl := fun _ => "u",
    nextHref := fun _ => some "n",
    navigate := fun s _ => s,
    detailPage := fun _ _ => none }

/-- A driver whose URL and page source are empty, so the progress check can
never pass (though the page does offer a table and a "next" control). -/
def noProgressOps : DriverOps Unit :=
  { tableAppears := fun _ => true,
    pageHtml := fun _ => staticPageHtml,
    pageSourceRaw := fun _ => "",
    currentUrl := fun _ => "",
    nextHref := fun _ => some "n",
    navigate := fun s _ => s,
    detailPage := fun _ _ => none }

/-- The href the scan reads off an anchor (`a["href"]`, absent treated as
empty). -/
def pdfHrefOf (a : Node) : String :=
  (attrOf a "href").getD ""

/-- Does the anchor's href end in the PDF extension (case-insensitively). -/
def isPdfAnchor (a : Node) : Bool :=
  pyEndsWith (pyLower (pdfHrefOf a)) ".pdf"

/-- Does the anchor's own text mention memo or petition (lowercased). -/
def petitionTxtMatch (a : Node) : Bool :=
  containsSubstr (pyLower (getTextSep " " a)) "memo"
    || containsSubstr (pyLower (getTextSep " " a)) "petition"

/-- Does the anchor's own text mention judgement, judgment or order. -/
def judgementTxtMatch (a : Node) : Bool :=
  containsSubstr (pyLower (getTextSep " " a)) "judgement"
    || containsSubstr (pyLower (getTextSep " " a)) "judgment"
    || containsSubstr (pyLower (getTextSep " " a)) "order"

/-- An anchor the scan assigns to the petition_memo slot. -/
def petitionDocMatch (a : Node) : Bool :=
  isPdfAnchor a && petitionTxtMatch a

/-- An anchor the scan assigns to the judgement_order slot (the elif branch:
not already a petition match). -/
def judgementDocMatch (a : Node) : Bool :=
  isPdfAnchor a && !petitionTxtMatch a && judgementTxtMatch a

/-- A detail page with two petition-matching PDF anchors, in document order
a.pdf then b.pdf. -/
def twoPetitionDoc : Node :=
  el "[document]" []
    [el "a" [("href", "a.pdf")] [tx "Petition one"],
     el "a" [("href", "b.pdf")] [tx "Petition two"]]

/-- Header row of the concrete four-column witness table. -/
def fourColHeadTr : Node :=
  el "tr" [] [el "th" [] [tx "H0"], el "th" [] [tx "H1"], el "th" [] [tx "H2"]]

/-- Body row (four cells) of the concrete witness table. -/
def fourColBodyTr : Node :=
  el "tr" [] [el "td" [] [tx "c0"], el "td" [] [tx "c1"],
    el "td" [] [tx "c2"], el "td" [] [tx "c3"]]

/-- The concrete witness table: three header labels, one four-cell row. -/
def fourColTableEl : Node :=
  el "table" [] [fourColHeadTr, fourColBodyTr]

/-- The concrete witness page. -/
def fourColTable : Node :=
  el "[document]" [] [fourColTableEl]

/-- A page containing none of the recognized selectors, labels, tables or
anchors. -/
def plainDetailPage : Node :=
  el "[document]" [] [el "p" [] [tx "hello"]]

/-- A listing page with one header column and two body rows. -/
def twoRowTable : Node :=
  el "[document]" []
    [el "table" []
      [el "tr" [] [el "th" [] [tx "A"]],
       el "tr" [] [el "td" [] [tx "x1"]],
       el "tr" [] [el "td" [] [tx "x2"]]]]

/-- A driver serving the two-row page with no further pages. -/
def singlePageDriver : DriverOps Unit :=
  { tableAppears := fun _ => true,
    pageHtml := fun _ => twoRowTable,
    pageSourceRaw := fun _ => "",
    currentUrl := fun _ => "",
    nextHref := fun _ => none,
    navigate := fun s _ => s,
    detailPage := fun _ _ => none }

/-- An orchestrator environment without a subcourt select. -/
def noSelectOps : CourtOps Unit :=
  { toDriverOps := singlePageDriver,
    navCourt := fun s _ => .ok s,
    navFallback := fun s _ => .ok s,
    clickMainSearch := fun s => s,
    findSelect := fun _ => none,
    reSelect := fun _ _ => none,
    subSearchClick := fun s => s }

/-- The concrete run used to witness C1. -/
def c1RunPair : Metadata × List CaseDict :=
  (scrape_major_court noSelectOps "2025-01-01" ()
    { name := "MajorB", href := "https://x/b" }).getD
    ({ file_name := "", created_on := "", source := "", url := "", description := "" }, [])

/-! ## Theorems -/

/-- chPrefix decides the list prefix relation. -/
theorem chPrefix_iff : ∀ (needle hay : List Char), chPrefix needle hay = true ↔ needle <+: hay
  | [], hay => by simp [chPrefix]
  | a :: as, [] => by simp [chPrefix]
  | a :: as, b :: bs => by
    simp [chPrefix, List.cons_prefix_cons, chPrefix_iff as bs]

/-- chInfix decides the list infix relation. -/
theorem chInfix_iff (needle : List Char) :
    ∀ (hay : List Char), chInfix needle hay = true ↔ needle <:+: hay
  | [] => by simp [chInfix, List.isEmpty_iff]
  | b :: bs => by
    simp [chInfix, List.infix_cons_iff, chPrefix_iff, chInfix_iff needle bs]

/-- The pages processed by the pagination loop body never exceed its
iteration budget. -/
theorem pagGo_pages_le {σ : Type} (ops : DriverOps σ) (major_name : String)
    (sub_text : Option String) :
    ∀ (fuel : Nat) (s : σ) (page k : Nat),
      (pagGo ops major_name sub_text fuel s page k).2 ≤ fuel := by
  intro fuel
  induction fuel with
  | zero => intro s page k; simp [pagGo]
  | succ fuel ih =>
    intro s page k
    simp only [pagGo]
    split
    · split
      · simp
      · split
        · simp
        · split
          · simp
          · split
            · simp
            · split
              · simp
              · split
                · split
                  · rename_i rest k2 sEnd p heq
                    have h2 := congrArg Prod.snd heq
                    simp only at h2
                    simp only []
                    rw [← h2]
                    exact Nat.succ_le_succ (ih _ _ _)
                  · rename_i p heq
                    have h2 := congrArg Prod.snd heq
                    simp only at h2
                    simp only []
                    rw [← h2]
                    exact Nat.succ_le_succ (ih _ _ _)
                · simp
    · simp

/-! ## Claim theorems -/

/-- C4: for every sub-scope the pagination loop terminates (it is a total
function of its inputs) and processes at most MAX_PAGES pages, whatever the
"next" controls report. -/
theorem pagination_pages_bounded {σ : Type} (ops : DriverOps σ) (major_name : String)
    (sub_text : Option String) (s : σ) (sr_no : Nat) :
    (handle_pagination_and_scrape ops major_name sub_text s sr_no).2 ≤ MAX_PAGES :=
  pagGo_pages_le ops major_name sub_text MAX_PAGES s 1 sr_no

/-- C7: should_scrape_court selects a jurisdiction iff the allow-list is
absent or some entry and the name are case-insensitive substrings of one
another (in either direction); concretely, ["Hyderabad"] selects
"Hyderabad Circuit" and rejects "Karachi". -/
theorem should_scrape_court_spec :
    (∀ (court_name : String) (sel : Option (List String)),
      should_scrape_court court_name sel = true ↔
        (sel = none ∨ ∃ scs, sel = some scs ∧ ∃ e ∈ scs,
          ((pyLower e).data <:+: (pyLower court_name).data
            ∨ (pyLower court_name).data <:+: (pyLower e).data)))
    ∧ should_scrape_court "Hyderabad Circuit" (some ["Hyderabad"]) = true
    ∧ should_scrape_court "Karachi" (some ["Hyderabad"]) = false := by
  refine ⟨fun court_name sel => ?_, by decide, by decide⟩
  cases sel with
  | none => simp [should_scrape_court]
  | some scs =>
    simp [should_scrape_court, List.any_eq_true, containsSubstr, chInfix_iff,
      or_comm]

/-- C10: for every input markup the Detail Resolver returns the advocates
structure with both lists empty; no code path ever populates them. -/
theorem advocates_always_empty (root : Node) :
    (extract_case_detail_from_html root).details.advocates
      = { applicant := [], respondent := [] } := by
  rfl

/-- The dedup pass emits no (href, name) pair twice, and none that was
already seen. -/
theorem dedupeMajors_key_nodup :
    ∀ (l : List Major) (seen : List (String × String)),
      ((dedupeMajors l seen).map (fun m => (m.href, m.name))).Nodup
        ∧ ∀ p ∈ (dedupeMajors l seen).map (fun m => (m.href, m.name)), p ∉ seen
  | [], seen => by simp [dedupeMajors]
  | e :: rest, seen => by
    simp only [dedupeMajors]
    split
    · rename_i h
      obtain ⟨hni, hne⟩ := h
      obtain ⟨ih1, ih2⟩ := dedupeMajors_key_nodup rest ((e.href, e.name) :: seen)
      refine ⟨?_, ?_⟩
      · simp only [List.map_cons, List.nodup_cons]
        exact ⟨fun hmem => (ih2 _ hmem) (List.mem_cons_self _ _), ih1⟩
      · intro p hp
        simp only [List.map_cons, List.mem_cons] at hp
        rcases hp with rfl | hp
        · exact hni
        · exact fun hmem => (ih2 _ hp) (List.mem_cons_of_mem _ hmem)
    · obtain ⟨ih1, ih2⟩ := dedupeMajors_key_nodup rest seen
      exact ⟨ih1, ih2⟩

/-- C9: Scope Discovery deduplicates by the (navigation link, name) pair
preserving first-seen order: the emitted key sequence has no duplicates, and
two cards carrying identical (link, name) data yield exactly one target. -/
theorem scope_discovery_dedup :
    (∀ divs : List CourtDiv,
      ((find_major_courts_selenium divs).map (fun m => (m.href, m.name))).Nodup)
    ∧ ∀ (d : CourtDiv) (m : Major), processDiv d = some m → m.href ≠ "" →
        find_major_courts_selenium [d, d] = [m] := by
  refine ⟨fun divs => (dedupeMajors_key_nodup _ _).1, fun d m hd hne => ?_⟩
  simp [find_major_courts_selenium, hd, dedupeMajors, hne]

/-- Witness for C9: two identical concrete cards yield exactly one target. -/
theorem scope_discovery_dedup_witness :
    find_major_courts_selenium [courtDivExample, courtDivExample]
      = [{ name := "CourtX", href := "https://x/y" }] :=
  scope_discovery_dedup.2 courtDivExample { name := "CourtX", href := "https://x/y" }
    rfl (by decide)

/-! ## Concrete driver environments used for counterexamples and witnesses -/

/-- Counterexample for C2: in a run whose only sub-scope fails to select, the
jurisdiction's case list is empty — no synthetic placeholder CaseRecord is
emitted for the failed sub-scope; it is simply dropped. -/
theorem selection_failure_emits_no_placeholder_cx :
    subcourtFailOps.findSelect () = some [("CourtA", "1")]
    ∧ subcourtFailOps.reSelect () ("CourtA", "1") = none
    ∧ (scrape_major_court subcourtFailOps "2025-01-01" ()
        { name := "MajorA", href := "https://x/a" }).map Prod.snd = some [] := by
  exact ⟨rfl, rfl, rfl⟩

/-- C2 (amended): when selecting a sub-scope option fails by visible text and
then by value, the sub-scope loop continues with the remaining sub-scopes as
if the failed one were absent — no record is emitted for it and the
jurisdiction is not aborted. -/
theorem selection_failure_skips_subscope {σ : Type} (ops : CourtOps σ)
    (major_name : String) (s : σ) (sub_text sub_val : String)
    (rest : List (String × String)) (k : Nat)
    (h : ops.reSelect s (sub_text, sub_val) = none) :
    scrapeSubcourts ops major_name s ((sub_text, sub_val) :: rest) k
      = scrapeSubcourts ops major_name s rest k := by
  simp [scrapeSubcourts, h]

/-- Witness for the amended C2 at a concrete environment. -/
theorem selection_failure_skips_subscope_witness :
    scrapeSubcourts subcourtFailOps "MajorA" () [("CourtA", "1")] 1
      = scrapeSubcourts subcourtFailOps "MajorA" () [] 1 :=
  selection_failure_skips_subscope subcourtFailOps "MajorA" () "CourtA" "1" [] 1 rfl

set_option maxRecDepth 100000 in
/-- Counterexample for C5: with a "next" control that never changes the page
(identity navigation, constant URL and source), the pagination controller
does NOT stop within one extra page attempt — the constant source happens to
contain the data-page marker substrings, the progress check passes every
time, and all MAX_PAGES = 20 pages are processed. -/
theorem unchanged_page_marker_loops_cx :
    staticPageOps.navigate = (fun s _ => s)
    ∧ staticPageOps.currentUrl = (fun _ => "u")
    ∧ staticPageOps.pageSourceRaw = (fun _ => staticMarkers)
    ∧ (handle_pagination_and_scrape staticPageOps "M" none () 1).2 = MAX_PAGES
    ∧ 2 < MAX_PAGES := by
  exact ⟨rfl, rfl, rfl, by decide, by decide⟩

/-- If the progress check never passes, every loop body processes at most one
page: the break after a failed check fires on the first next-activation. -/
theorem pagGo_pages_le_one {σ : Type} (ops : DriverOps σ) (major_name : String)
    (sub_text : Option String)
    (h : ∀ (s : σ) (page : Nat), progressCheck ops s page = false) :
    ∀ (fuel : Nat) (s : σ) (page k : Nat),
      (pagGo ops major_name sub_text fuel s page k).2 ≤ 1 := by
  intro fuel
  induction fuel with
  | zero => intro s page k; simp [pagGo]
  | succ fuel ih =>
    intro s page k
    simp only [pagGo]
    split
    · split
      · simp
      · split
        · simp
        · split
          · simp
          · split
            · simp
            · split
              · simp
              · rw [h]
                simp
    · simp

/-- C5 (amended): when the forward-progress check fails — the post-navigation
URL does not contain "page=<p+1>" and the page source does not contain the
literal substring "data-page=\"<p>\"" — the controller stops at once; if the
check never passes, at most one page is ever processed.  (An unchanged page
whose source happens to contain the marker substring passes the check, as the
C5 counterexample shows.) -/
theorem progress_check_failure_stops {σ : Type} (ops : DriverOps σ)
    (major_name : String) (sub_text : Option String)
    (h : ∀ (s : σ) (page : Nat), progressCheck ops s page = false)
    (s : σ) (sr_no : Nat) :
    (handle_pagination_and_scrape ops major_name sub_text s sr_no).2 ≤ 1 :=
  pagGo_pages_le_one ops major_name sub_text h MAX_PAGES s 1 sr_no

/-- Witness for the amended C5 at a concrete environment. -/
theorem progress_check_failure_stops_witness :
    (handle_pagination_and_scrape noProgressOps "M" none () 1).2 ≤ 1 :=
  progress_check_failure_stops noProgressOps "M" none (fun _ _ => rfl) () 1

/-! ## Document-link classification (C3) -/

/-- A petition-matching anchor overwrites the petition_memo slot. -/
theorem docStep_petition_set (d : Documents) (a : Node)
    (h : petitionDocMatch a = true) :
    (docStep d a).petition_memo = urljoin BASE_URL (pdfHrefOf a) := by
  simp only [petitionDocMatch, isPdfAnchor, petitionTxtMatch, pdfHrefOf,
    Bool.and_eq_true] at h
  simp [docStep, pdfHrefOf, h.1, h.2]

/-- A non-petition-matching anchor leaves the petition_memo slot alone. -/
theorem docStep_petition_keep (d : Documents) (a : Node)
    (h : petitionDocMatch a = false) :
    (docStep d a).petition_memo = d.petition_memo := by
  simp only [petitionDocMatch, isPdfAnchor, petitionTxtMatch, pdfHrefOf,
    Bool.and_eq_false_iff] at h
  simp only [docStep]
  rcases h with h | h
  · simp [h]
  · split
    · rw [if_neg (by simp [h])]
      split
      · rfl
      · rfl
    · rfl

/-- A judgement-matching anchor overwrites the judgement_order slot. -/
theorem docStep_judgement_set (d : Documents) (a : Node)
    (h : judgementDocMatch a = true) :
    (docStep d a).judgement_order = urljoin BASE_URL (pdfHrefOf a) := by
  simp only [judgementDocMatch, isPdfAnchor, petitionTxtMatch, judgementTxtMatch,
    pdfHrefOf, Bool.and_eq_true, Bool.not_eq_true'] at h
  obtain ⟨⟨hpdf, hnp⟩, hj⟩ := h
  simp [docStep, pdfHrefOf, hpdf, hnp, hj]

/-- A non-judgement-matching anchor leaves the judgement_order slot alone. -/
theorem docStep_judgement_keep (d : Documents) (a : Node)
    (h : judgementDocMatch a = false) :
    (docStep d a).judgement_order = d.judgement_order := by
  simp only [docStep]
  split
  · rename_i hpdf
    split
    · rfl
    · rename_i hpet
      split
      · rename_i hj
        exfalso
        rw [Bool.not_eq_true] at hpet
        have hT : judgementDocMatch a = true := by
          simp [judgementDocMatch, isPdfAnchor, petitionTxtMatch,
            judgementTxtMatch, pdfHrefOf, hpdf, hpet, hj]
        rw [hT] at h
        exact absurd h (by simp)
      · rfl
  · rfl

/-- The folded document scan stores, in the petition_memo slot, the link of
the LAST petition-matching anchor (falling back to the initial value). -/
theorem foldl_docStep_petition :
    ∀ (l : List Node) (d : Documents),
      (l.foldl docStep d).petition_memo
        = ((l.filter petitionDocMatch).getLast?).elim d.petition_memo
            (fun a => urljoin BASE_URL (pdfHrefOf a))
  | [], d => by simp
  | a :: l, d => by
    simp only [List.foldl_cons, List.filter_cons]
    cases hp : petitionDocMatch a with
    | false =>
      rw [if_neg (by simp [hp])]
      rw [foldl_docStep_petition l (docStep d a), docStep_petition_keep d a hp]
    | true =>
      rw [if_pos rfl]
      rw [foldl_docStep_petition l (docStep d a)]
      cases hfl : (l.filter petitionDocMatch).getLast? with
      | none =>
        have hnil := List.getLast?_eq_none_iff.mp hfl
        simp [hnil, docStep_petition_set d a hp]
      | some x =>
        simp [hfl, List.getLast?_cons]

/-- The folded document scan stores, in the judgement_order slot, the link of
the LAST judgement-matching anchor (falling back to the initial value). -/
theorem foldl_docStep_judgement :
    ∀ (l : List Node) (d : Documents),
      (l.foldl docStep d).judgement_order
        = ((l.filter judgementDocMatch).getLast?).elim d.judgement_order
            (fun a => urljoin BASE_URL (pdfHrefOf a))
  | [], d => by simp
  | a :: l, d => by
    simp only [List.foldl_cons, List.filter_cons]
    cases hp : judgementDocMatch a with
    | false =>
      rw [if_neg (by simp [hp])]
      rw [foldl_docStep_judgement l (docStep d a), docStep_judgement_keep d a hp]
    | true =>
      rw [if_pos rfl]
      rw [foldl_docStep_judgement l (docStep d a)]
      cases hfl : (l.filter judgementDocMatch).getLast? with
      | none =>
        have hnil := List.getLast?_eq_none_iff.mp hfl
        simp [hnil, docStep_judgement_set d a hp]
      | some x =>
        simp [hfl, List.getLast?_cons]

/-- Counterexample for C3: with two petition-matching PDF anchors the stored
petition_memo link is the SECOND (last) anchor's, not the first's. -/
theorem pdf_doc_first_match_cx :
    (extract_case_detail_from_html twoPetitionDoc).details.documents.petition_memo
      = "https://cases.shc.gov.pk/b.pdf"
    ∧ "https://cases.shc.gov.pk/b.pdf" ≠ "https://cases.shc.gov.pk/a.pdf" := by
  exact ⟨by decide, by decide⟩

/-- C3 (amended): the Detail Resolver classifies each PDF-suffixed anchor by
case-insensitive keyword matching on the anchor's own text, and for each
category the LAST matching anchor in document order determines the stored
link (every later match overwrites the earlier one); an anchor matching both
keyword sets goes to petition_memo only. -/
theorem pdf_doc_last_match_wins (root : Node) :
    (extract_case_detail_from_html root).details.documents.petition_memo
      = ((anchorsWithHref root).filter petitionDocMatch).getLast?.elim "NA"
          (fun a => urljoin BASE_URL (pdfHrefOf a))
    ∧ (extract_case_detail_from_html root).details.documents.judgement_order
      = ((anchorsWithHref root).filter judgementDocMatch).getLast?.elim "NA"
          (fun a => urljoin BASE_URL (pdfHrefOf a)) := by
  constructor
  · have h := foldl_docStep_petition (anchorsWithHref root)
      { petition_memo := "NA", judgement_order := "NA" }
    simpa [extract_case_detail_from_html, documentsOf] using h
  · have h := foldl_docStep_judgement (anchorsWithHref root)
      { petition_memo := "NA", judgement_order := "NA" }
    simpa [extract_case_detail_from_html, documentsOf] using h

/-! ## Column fallback (C8) -/

/-- Inserting a fresh key into a dict appends it at the end. -/
theorem dinsertG_of_not_mem {α : Type} (k : String) (v : α) :
    ∀ (d : List (String × α)), k ∉ dkeys d → dinsertG k v d = d ++ [(k, v)]
  | [], _ => rfl
  | (k0, v0) :: rest, h => by
    have hk : ¬(k0 = k) := by
      intro hc
      exact h (by simp [dkeys, hc])
    simp only [dinsertG, if_neg hk, List.cons_append]
    rw [dinsertG_of_not_mem k v rest (fun hm => h (by simp [dkeys] at hm ⊢; exact Or.inr hm))]

/-- Destructure a list of length four. -/
theorem list_length_four {α : Type} :
    ∀ (l : List α), l.length = 4 → ∃ a b c d, l = [a, b, c, d]
  | [], h => by simp at h
  | [_], h => by simp at h
  | [_, _], h => by simp at h
  | [_, _, _], h => by simp at h
  | [a, b, c, d], _ => ⟨a, b, c, d, rfl⟩
  | _ :: _ :: _ :: _ :: _ :: _, h => by simp at h

/-- A row of four cells against three distinct headers produces exactly the
keys [l0, l1, l2, col_3, court, circuit_code] in order. -/
theorem rowEntry_keys_four (l0 l1 l2 major circuit : String) (a b c d : Node)
    (hd01 : l0 ≠ l1) (hd02 : l0 ≠ l2) (hd12 : l1 ≠ l2)
    (h0 : l0 ≠ "col_3" ∧ l0 ≠ "court" ∧ l0 ≠ "circuit_code")
    (h1 : l1 ≠ "col_3" ∧ l1 ≠ "court" ∧ l1 ≠ "circuit_code")
    (h2 : l2 ≠ "col_3" ∧ l2 ≠ "court" ∧ l2 ≠ "circuit_code") :
    dkeys (rowEntry [l0, l1, l2] major circuit [a, b, c, d])
      = [l0, l1, l2, "col_3", "court", "circuit_code"] := by
  simp [rowEntry, dkeys, dinsertG, List.enum, List.enumFrom, List.getD,
    show ("col_" ++ toString (3 : Nat)) = "col_3" from rfl,
    hd01, hd02, hd12, h0.1, h0.2.1, h0.2.2, h1.1, h1.2.1, h1.2.2,
    h2.1, h2.2.1, h2.2.2]

/-- C8: for every page whose first table has a header row of exactly three
(pairwise distinct, non-reserved) labels and whose body rows all have four
cells, every extracted record is keyed by the three header labels for the
first three cells and by the positional fallback col_3 for the fourth
(followed by the stamped court and circuit_code fields). -/
theorem column_fallback_keys (root : Node) (major_name : String) (sub : Option String)
    (table headerRow : Node) (l0 l1 l2 : String)
    (ht : firstTableOf root = some table)
    (hh : headerRowOf table = some headerRow)
    (hc : headerCellsOf headerRow = [l0, l1, l2])
    (hrows : ∀ row ∈ bodyRowsOf table, (rowCellsOf row).length = 4)
    (hd01 : l0 ≠ l1) (hd02 : l0 ≠ l2) (hd12 : l1 ≠ l2)
    (h0 : l0 ≠ "col_3" ∧ l0 ≠ "court" ∧ l0 ≠ "circuit_code")
    (h1 : l1 ≠ "col_3" ∧ l1 ≠ "court" ∧ l1 ≠ "circuit_code")
    (h2 : l2 ≠ "col_3" ∧ l2 ≠ "court" ∧ l2 ≠ "circuit_code") :
    ∃ recs links,
      extract_cases_from_html root major_name sub = some (recs, links)
        ∧ ∀ rec ∈ recs, dkeys rec = [l0, l1, l2, "col_3", "court", "circuit_code"] := by
  refine ⟨(extractRows (headerCellsOf headerRow) major_name
      (circuitOf major_name sub) (bodyRowsOf table)).map Prod.fst,
    (extractRows (headerCellsOf headerRow) major_name
      (circuitOf major_name sub) (bodyRowsOf table)).map Prod.snd, ?_, ?_⟩
  · simp [extract_cases_from_html, ht, hh]
  · intro rec hrec
    simp only [extractRows, List.mem_map, List.mem_filterMap] at hrec
    obtain ⟨⟨rc, lk⟩, ⟨row, hrow, hmk⟩, hfst⟩ := hrec
    have hlen := hrows row hrow
    obtain ⟨a, b, c, d, hcells⟩ := list_length_four (rowCellsOf row) hlen
    rw [hcells] at hmk
    simp only [List.isEmpty_cons, Bool.false_eq_true, if_false, Option.some.injEq,
      Prod.mk.injEq] at hmk
    obtain ⟨hrc, hlk⟩ := hmk
    rw [← hfst, ← hrc, hc]
    exact rowEntry_keys_four l0 l1 l2 major_name (circuitOf major_name sub) a b c d
      hd01 hd02 hd12 h0 h1 h2

/-- Witness for C8 at the concrete three-header/four-cell table. -/
theorem column_fallback_keys_witness :
    ∃ recs links,
      extract_cases_from_html fourColTable "M" none = some (recs, links)
        ∧ ∀ rec ∈ recs, dkeys rec = ["H0", "H1", "H2", "col_3", "court", "circuit_code"] :=
  column_fallback_keys fourColTable "M" none fourColTableEl fourColHeadTr "H0" "H1" "H2"
    rfl rfl rfl (by decide) (by decide) (by decide) (by decide)
    (by decide) (by decide) (by decide)

/-! ## Idempotent degradation (C6) -/

/-- When every selector in the list fails to match, pick_one degrades to the
"NA" sentinel. -/
theorem pick_one_all_none (root : Node) :
    ∀ (qs : List Sel), (∀ q ∈ qs, selectOne root q = none) → pick_one root qs = "NA"
  | [], _ => rfl
  | q :: rest, h => by
    have hq := h q (List.mem_cons_self q rest)
    simp only [pick_one, hq]
    exact pick_one_all_none root rest (fun p hp => h p (List.mem_cons_of_mem q hp))

/-- When no listed label occurs in the page, the profile fold leaves its
accumulator untouched. -/
theorem profile_fold_id (root : Node) :
    ∀ (ls : List String) (acc : List (String × String)),
      (∀ lab ∈ ls, findProfileNode root lab = none) →
      ls.foldl (profileStep root) acc = acc
  | [], _, _ => rfl
  | lab :: ls, acc, h => by
    have hl := h lab (List.mem_cons_self lab ls)
    simp only [List.foldl_cons, profileStep, hl]
    exact profile_fold_id root ls acc (fun p hp => h p (List.mem_cons_of_mem lab hp))

/-- When no anchor carries a PDF href, the document scan leaves the initial
slots untouched. -/
theorem foldl_docStep_id :
    ∀ (l : List Node) (d : Documents), (∀ a ∈ l, isPdfAnchor a = false) →
      l.foldl docStep d = d
  | [], _, _ => rfl
  | a :: l, d, h => by
    have ha := h a (List.mem_cons_self a l)
    simp only [isPdfAnchor, pdfHrefOf] at ha
    have hstep : docStep d a = d := by
      simp [docStep, ha]
    simp only [List.foldl_cons, hstep]
    exact foldl_docStep_id l d (fun p hp => h p (List.mem_cons_of_mem a hp))

/-- C6: a detail page matching none of the recognized selectors, none of the
profile labels, no party-keyword table and no PDF anchor resolves — without
raising (the resolver is a total function) — to the fully degraded record:
"NA" sentinels everywhere, an empty profile and no parties. -/
theorem detail_resolver_all_na (root : Node)
    (hsel : ∀ q ∈ allDetailSelectors, selectOne root q = none)
    (hlab : ∀ lab ∈ profileLabels, findProfileNode root lab = none)
    (htab : partyTableOf root = none)
    (hdoc : ∀ a ∈ anchorsWithHref root, isPdfAnchor a = false) :
    extract_case_detail_from_html root =
      { summary := "NA", tagline := "NA",
        details :=
          { profile := [],
            last_hearing :=
              { date := "NA", list := "NA", stage := "NA", bench := "NA", remarks := "NA" },
            parties := [],
            advocates := { applicant := [], respondent := [] },
            documents := { petition_memo := "NA", judgement_order := "NA" } } } := by
  have hsub : ∀ (qs : List Sel), (∀ q ∈ qs, q ∈ allDetailSelectors) →
      pick_one root qs = "NA" :=
    fun qs hq => pick_one_all_none root qs (fun q hmem => hsel q (hq q hmem))
  have hsum := hsub summarySelList (by intro q hq; simp [allDetailSelectors]; tauto)
  have htag := hsub taglineSelList (by intro q hq; simp [allDetailSelectors]; tauto)
  have hdate := hsub hearingDateSelList (by intro q hq; simp [allDetailSelectors]; tauto)
  have hlist := hsub hearingListSelList (by intro q hq; simp [allDetailSelectors]; tauto)
  have hstage := hsub hearingStageSelList (by intro q hq; simp [allDetailSelectors]; tauto)
  have hbench := hsub hearingBenchSelList (by intro q hq; simp [allDetailSelectors]; tauto)
  have hrem := hsub hearingRemarksSelList (by intro q hq; simp [allDetailSelectors]; tauto)
  have hprof : profileOf root = [] := profile_fold_id root profileLabels [] hlab
  have hdocs : documentsOf root = { petition_memo := "NA", judgement_order := "NA" } :=
    foldl_docStep_id (anchorsWithHref root) _ hdoc
  simp [extract_case_detail_from_html, hsum, htag, hdate, hlist, hstage, hbench,
    hrem, hprof, hdocs, htab]

/-- Witness for C6 at the concrete unrecognizable page. -/
theorem detail_resolver_all_na_witness :
    extract_case_detail_from_html plainDetailPage =
      { summary := "NA", tagline := "NA",
        details :=
          { profile := [],
            last_hearing :=
              { date := "NA", list := "NA", stage := "NA", bench := "NA", remarks := "NA" },
            parties := [],
            advocates := { applicant := [], respondent := [] },
            documents := { petition_memo := "NA", judgement_order := "NA" } } } :=
  detail_resolver_all_na plainDetailPage
    (by intro q hq; fin_cases hq <;> rfl)
    (by intro lab hl; fin_cases hl <;> rfl)
    rfl
    (by
      intro a ha
      rw [show anchorsWithHref plainDetailPage = [] from rfl] at ha
      exact absurd ha (List.not_mem_nil a))

/-! ## Sequence invariant (C1) -/

/-- Looking up a key right after inserting it yields the inserted value. -/
theorem dget_dinsertG_self {α : Type} (k : String) (v : α) :
    ∀ (d : List (String × α)), dget (dinsertG k v d) k = some v
  | [] => by simp [dinsertG, dget]
  | (k0, v0) :: rest => by
    by_cases h : k0 = k
    · simp [dinsertG, dget, h]
    · simp only [dinsertG, if_neg h, dget, if_neg h]
      exact dget_dinsertG_self k v rest

/-- The per-page record loop stamps consecutive sr_no values starting at the
incoming counter and returns the counter advanced by the page's record
count. -/
theorem processCases_spec {σ : Type} (ops : DriverOps σ) (s : σ) :
    ∀ (cs : List CaseDict) (links : List (Option String)) (k : Nat),
      (processCases ops s cs links k).2 = k + cs.length
        ∧ (processCases ops s cs links k).1.map (fun c => dget c "sr_no")
            = (List.range' k cs.length).map (fun n => some (JVal.n n))
  | [], links, k => by simp [processCases]
  | c :: cs, links, k => by
    have ih := processCases_spec ops s cs links.tail (k + 1)
    simp only [processCases, List.map_cons, List.length_cons]
    refine ⟨by rw [ih.1]; omega, ?_⟩
    rw [show List.range' k (cs.length + 1) = k :: List.range' (k + 1) cs.length from rfl,
      List.map_cons, dget_dinsertG_self, ih.2]

/-- Lengths agree between a page's records and its stamped output. -/
theorem processCases_length {σ : Type} (ops : DriverOps σ) (s : σ)
    (cs : List CaseDict) (links : List (Option String)) (k : Nat) :
    (processCases ops s cs links k).1.length = cs.length := by
  have h := congrArg List.length (processCases_spec ops s cs links k).2
  simpa using h

/-- The pagination loop body threads consecutive sr_no values: when it
returns normally, the collected cases carry exactly the counter values
k, k+1, ..., and the returned counter is the incoming one plus the case
count. -/
theorem pagGo_srno {σ : Type} (ops : DriverOps σ) (major_name : String)
    (sub_text : Option String) :
    ∀ (fuel : Nat) (s : σ) (page k : Nat) (cases : List CaseDict) (k2 : Nat)
      (sEnd : σ) (p : Nat),
      pagGo ops major_name sub_text fuel s page k = (some (cases, k2, sEnd), p) →
      k2 = k + cases.length
        ∧ cases.map (fun c => dget c "sr_no")
            = (List.range' k cases.length).map (fun n => some (JVal.n n)) := by
  intro fuel
  induction fuel with
  | zero =>
    intro s page k cases k2 sEnd p heq
    simp only [pagGo, Prod.mk.injEq, Option.some.injEq] at heq
    obtain ⟨⟨hc, hk, -⟩, -⟩ := heq
    subst hc; subst hk
    simp
  | succ fuel ih =>
    intro s page k cases k2 sEnd p heq
    simp only [pagGo] at heq
    split at heq
    · split at heq
      · simp at heq
      · rename_i cases_page detail_links heq2
        split at heq
        · simp only [Prod.mk.injEq, Option.some.injEq] at heq
          obtain ⟨⟨hc, hk, -⟩, -⟩ := heq
          subst hc; subst hk
          simp
        · split at heq
          · simp only [Prod.mk.injEq, Option.some.injEq] at heq
            obtain ⟨⟨hc, hk, -⟩, -⟩ := heq
            have hspec := processCases_spec ops s cases_page detail_links k
            have hlen := processCases_length ops s cases_page detail_links k
            subst hc; subst hk
            exact ⟨by rw [hspec.1, hlen], by rw [hspec.2, hlen]⟩
          · split at heq
            · simp only [Prod.mk.injEq, Option.some.injEq] at heq
              obtain ⟨⟨hc, hk, -⟩, -⟩ := heq
              have hspec := processCases_spec ops s cases_page detail_links k
              have hlen := processCases_length ops s cases_page detail_links k
              subst hc; subst hk
              exact ⟨by rw [hspec.1, hlen], by rw [hspec.2, hlen]⟩
            · split at heq
              · simp only [Prod.mk.injEq, Option.some.injEq] at heq
                obtain ⟨⟨hc, hk, -⟩, -⟩ := heq
                have hspec := processCases_spec ops s cases_page detail_links k
                have hlen := processCases_length ops s cases_page detail_links k
                subst hc; subst hk
                exact ⟨by rw [hspec.1, hlen], by rw [hspec.2, hlen]⟩
              · split at heq
                · split at heq
                  · rename_i rest rk2 rsEnd rp heq3
                    simp only [Prod.mk.injEq, Option.some.injEq] at heq
                    obtain ⟨⟨hc, hk, -⟩, -⟩ := heq
                    have hspec := processCases_spec ops s cases_page detail_links k
                    have hlen := processCases_length ops s cases_page detail_links k
                    have hih := ih _ _ _ _ _ _ _ heq3
                    subst hc; subst hk
                    constructor
                    · rw [hih.1, hspec.1, List.length_append]
                      omega
                    · rw [List.map_append, hspec.2, hih.2, hspec.1, List.length_append]
                      rw [show (processCases ops s cases_page detail_links k).1.length
                          + rest.length = rest.length
                          + (processCases ops s cases_page detail_links k).1.length
                        from by omega]
                      rw [← List.map_append, hlen, List.range'_append_1]
                  · simp at heq
                · simp only [Prod.mk.injEq, Option.some.injEq] at heq
                  obtain ⟨⟨hc, hk, -⟩, -⟩ := heq
                  have hspec := processCases_spec ops s cases_page detail_links k
                  have hlen := processCases_length ops s cases_page detail_links k
                  subst hc; subst hk
                  exact ⟨by rw [hspec.1, hlen], by rw [hspec.2, hlen]⟩
    · simp only [Prod.mk.injEq, Option.some.injEq] at heq
      obtain ⟨⟨hc, hk, -⟩, -⟩ := heq
      subst hc; subst hk
      simp

/-- The subcourt loop threads the sr_no counter across sub-scopes: when it
returns normally its accumulated cases carry the consecutive counter values
starting at the incoming counter. -/
theorem scrapeSubcourts_srno {σ : Type} (ops : CourtOps σ) (major_name : String) :
    ∀ (subs : List (String × String)) (s : σ) (k : Nat) (cases : List CaseDict) (k2 : Nat),
      scrapeSubcourts ops major_name s subs k = some (cases, k2) →
      k2 = k + cases.length
        ∧ cases.map (fun c => dget c "sr_no")
            = (List.range' k cases.length).map (fun n => some (JVal.n n))
  | [], s, k, cases, k2 => by
    intro heq
    simp only [scrapeSubcourts, Option.some.injEq, Prod.mk.injEq] at heq
    obtain ⟨hc, hk⟩ := heq
    subst hc; subst hk
    simp
  | (sub_text, sub_val) :: rest, s, k, cases, k2 => by
    intro heq
    simp only [scrapeSubcourts] at heq
    split at heq
    · exact scrapeSubcourts_srno ops major_name rest s k cases k2 heq
    · split at heq
      · rename_i s1 hs1 pcases k1 sEnd p heq2
        simp only [Option.map_eq_some'] at heq
        obtain ⟨⟨rcases, rk2⟩, hrec, hpair⟩ := heq
        simp only [Prod.mk.injEq] at hpair
        obtain ⟨hc, hk⟩ := hpair
        subst hc; subst hk
        have hpag := pagGo_srno ops.toDriverOps major_name (some sub_text)
          MAX_PAGES _ 1 k pcases k1 sEnd p heq2
        have hrest := scrapeSubcourts_srno ops major_name rest sEnd k1 rcases rk2 hrec
        constructor
        · rw [hrest.1, hpag.1, List.length_append]
          omega
        · rw [List.map_append, hpag.2, hrest.2, hpag.1, List.length_append]
          rw [show pcases.length + rcases.length = rcases.length + pcases.length from by omega]
          rw [← List.map_append, List.range'_append_1]
      · simp at heq

/-- C1: for every jurisdiction run that returns normally, the sr_no values of
its cases are exactly the contiguous sequence 1..N, N the total number of
cases in that jurisdiction's output — the counter starts at 1, is threaded
through the pagination loop across every sub-scope, and is assigned when a
record is appended. -/
theorem sr_no_values_contiguous {σ : Type} (ops : CourtOps σ) (today : String)
    (s : σ) (major : Major) (meta : Metadata) (cases : List CaseDict)
    (h : scrape_major_court ops today s major = some (meta, cases)) :
    cases.map (fun c => dget c "sr_no")
      = (List.range' 1 cases.length).map (fun n => some (JVal.n n)) := by
  simp only [scrape_major_court] at h
  split at h
  · simp only [Option.some.injEq, Prod.mk.injEq] at h
    obtain ⟨-, hc⟩ := h
    subst hc
    simp
  · split at h
    · split at h
      · rename_i pcases k1 sEnd p heq2
        simp only [Option.map_eq_some', Option.some.injEq, Prod.mk.injEq] at h
        obtain ⟨cs, hcs, -, hc⟩ := h
        subst hcs
        subst hc
        exact (pagGo_srno ops.toDriverOps major.name none MAX_PAGES _ 1 1
          pcases k1 sEnd p heq2).2
      · simp at h
    · simp only [Option.map_eq_some', Prod.mk.injEq] at h
      obtain ⟨cs, hcs, -, hc⟩ := h
      obtain ⟨⟨rcases, rk2⟩, hrec, hfst⟩ := hcs
      subst hc
      simp only at hfst
      subst hfst
      exact (scrapeSubcourts_srno ops major.name _ _ 1 rcases rk2 hrec).2

/-- Witness for C1 at a concrete two-case run. -/
theorem sr_no_values_contiguous_witness :
    c1RunPair.2.map (fun c => dget c "sr_no")
      = (List.range' 1 c1RunPair.2.length).map (fun n => some (JVal.n n)) :=
  sr_no_values_contiguous noSelectOps "2025-01-01" ()
    { name := "MajorB", href := "https://x/b" } c1RunPair.1 c1RunPair.2 rfl
